import Mathlib

/-!
Verification of the search / pagination / fetch behaviour of the
shapeshift-landing-frontend repository.  The TypeScript components are
shallowly embedded as Lean functions; theorems settle the claims of the
specification against those embeddings.
-/

/-! ## JavaScript string primitives

`String.prototype.toLowerCase` and `String.prototype.includes` as used by the
search wrappers.  `toLowerCase` lowercases every character; `includes` is
substring containment. -/

/-- JavaScript `s.toLowerCase()`: lowercase every character of the string. -/
def toLowerCase (s : String) : String := ⟨s.data.map Char.toLower⟩

/-- Substring test on character lists: does `sub` occur contiguously in the
second list?  (The empty list occurs in every list.) -/
def containsSub (sub : List Char) : List Char → Bool
  | [] => sub.isEmpty
  | c :: t => sub.isPrefixOf (c :: t) || containsSub sub t

/-- JavaScript `s.includes(sub)`: `sub` occurs contiguously in `s`. -/
def jsIncludes (s sub : String) : Bool := containsSub sub.data s.data

lemma containsSub_iff_IsInfix (sub l : List Char) :
    containsSub sub l = true ↔ sub <:+: l := by
  induction l with
  | nil =>
    simp only [containsSub, List.isEmpty_iff, List.infix_nil]
  | cons c t ih =>
    simp only [containsSub, Bool.or_eq_true, ih, List.isPrefixOf_iff_prefix,
      List.infix_cons_iff]

lemma jsIncludes_iff (s sub : String) :
    jsIncludes s sub = true ↔ sub.data <:+: s.data :=
  containsSub_iff_IsInfix sub.data s.data

/-! ## C1 data model and search wrappers

Item shapes for the three search wrappers.  The shared client-side type
module (`@/components/strapi/types`) is not part of the sources; the fields
below are the ones the wrapper components read, together with the record
fields named by the data-model section of the specification. -/

/-- A discover item as read by `DiscoverSearchWrapper`
(`src/app/(resources)/discover/_components/DiscoverSearchWrapper.tsx`):
the filter reads `title` and `tag`, the grouping reads `type`. -/
structure TDiscoverData where
  title : String
  tag : String
  type : String
deriving DecidableEq

/-- A supported-protocol record.  The wrapper code reads `name` and
`isFeatured`; `slug` is read by the protocol detail page.
Modelled from the spec: the shared type module is absent from the sources,
and the specification's data model lists `title` and `tags` among the flat
CMS record fields, so the record also carries a `title` and a `tag`. -/
structure TSupportedProtocolData where
  name : String
  isFeatured : Bool
  slug : String
  title : String
  tag : String
deriving DecidableEq

/-- A supported-wallet record, shaped like `TSupportedProtocolData`.
Modelled from the spec: the shared type module is absent from the sources,
and the specification's data model lists `title` and `tags` among the flat
CMS record fields, so the record also carries a `title` and a `tag`. -/
structure TSupportedWalletData where
  name : String
  isFeatured : Bool
  title : String
  tag : String
deriving DecidableEq

/-- `DiscoverSearchWrapper`'s `filteredDiscover`:
`discover?.filter(item => item.title.toLowerCase().includes(searchQuery.toLowerCase())
|| item.tag.toLowerCase().includes(searchQuery.toLowerCase()))`. -/
def filteredDiscover (discover : List TDiscoverData) (searchQuery : String) :
    List TDiscoverData :=
  discover.filter fun item =>
    jsIncludes (toLowerCase item.title) (toLowerCase searchQuery) ||
    jsIncludes (toLowerCase item.tag) (toLowerCase searchQuery)

/-- `ProtocolSearchWrapper.handleSearch`'s filter:
`protocols.filter(protocol => protocol.name.toLowerCase().includes(query.toLowerCase()))`. -/
def protocolHandleSearch (protocols : List TSupportedProtocolData)
    (query : String) : List TSupportedProtocolData :=
  protocols.filter fun protocol =>
    jsIncludes (toLowerCase protocol.name) (toLowerCase query)

/-- `WalletSearchWrapper.handleSearch`'s filter:
`wallets.filter(wallet => wallet.name.toLowerCase().includes(query.toLowerCase()))`. -/
def walletHandleSearch (wallets : List TSupportedWalletData)
    (query : String) : List TSupportedWalletData :=
  wallets.filter fun wallet =>
    jsIncludes (toLowerCase wallet.name) (toLowerCase query)

/-- C1 counterexample: the claim says every search wrapper keeps exactly the
items whose lowercased title or tag has the lowercased query as a substring.
For the protocol wrapper this fails: a protocol titled and tagged "alpha"
but named "beta" is dropped by `protocolHandleSearch` on the query "alpha",
although its title contains the query. -/
theorem c1_counterexample :
    ¬ (((⟨"beta", false, "beta", "alpha", "alpha"⟩ : TSupportedProtocolData) ∈
          protocolHandleSearch [⟨"beta", false, "beta", "alpha", "alpha"⟩] "alpha") ↔
        ((toLowerCase "alpha").data <:+:
            (toLowerCase (⟨"beta", false, "beta", "alpha", "alpha"⟩ :
              TSupportedProtocolData).title).data ∨
          (toLowerCase "alpha").data <:+:
            (toLowerCase (⟨"beta", false, "beta", "alpha", "alpha"⟩ :
              TSupportedProtocolData).tag).data)) := by
  intro h
  have hmem : ((⟨"beta", false, "beta", "alpha", "alpha"⟩ : TSupportedProtocolData) ∈
      protocolHandleSearch [⟨"beta", false, "beta", "alpha", "alpha"⟩] "alpha") := by
    apply h.mpr
    left
    rw [← jsIncludes_iff]
    decide
  revert hmem
  decide

/-- C1 (amended): for the discover wrapper the filtered result contains
exactly the items whose lowercased title or lowercased tag contains the
lowercased search string; for the protocol and wallet wrappers it contains
exactly the items whose lowercased name contains the lowercased string. -/
theorem c1_amended_search_filters (discover : List TDiscoverData)
    (protocols : List TSupportedProtocolData) (wallets : List TSupportedWalletData)
    (q : String) :
    (∀ item, item ∈ filteredDiscover discover q ↔
        item ∈ discover ∧
          ((toLowerCase q).data <:+: (toLowerCase item.title).data ∨
           (toLowerCase q).data <:+: (toLowerCase item.tag).data)) ∧
    (∀ p, p ∈ protocolHandleSearch protocols q ↔
        p ∈ protocols ∧ (toLowerCase q).data <:+: (toLowerCase p.name).data) ∧
    (∀ w, w ∈ walletHandleSearch wallets q ↔
        w ∈ wallets ∧ (toLowerCase q).data <:+: (toLowerCase w.name).data) := by
  refine ⟨fun item => ?_, fun p => ?_, fun w => ?_⟩ <;>
    simp [filteredDiscover, protocolHandleSearch, walletHandleSearch,
      List.mem_filter, jsIncludes_iff]

/-! ## C10: featured / non-featured split in the protocol and wallet wrappers -/

/-- `ProtocolSearchWrapper`'s `featuredProtocols`:
`filteredProtocols?.filter(protocol => protocol.isFeatured)`. -/
def featuredProtocols (filteredProtocols : List TSupportedProtocolData) :
    List TSupportedProtocolData :=
  filteredProtocols.filter fun protocol => protocol.isFeatured

/-- `ProtocolSearchWrapper`'s `nonFeaturedProtocols`:
`filteredProtocols?.filter(protocol => !protocol.isFeatured)`. -/
def nonFeaturedProtocols (filteredProtocols : List TSupportedProtocolData) :
    List TSupportedProtocolData :=
  filteredProtocols.filter fun protocol => !protocol.isFeatured

/-- `WalletSearchWrapper`'s `featuredWallets`:
`filteredWallets?.filter(wallet => wallet.isFeatured)`. -/
def featuredWallets (filteredWallets : List TSupportedWalletData) :
    List TSupportedWalletData :=
  filteredWallets.filter fun wallet => wallet.isFeatured

/-- `WalletSearchWrapper`'s `nonFeaturedWallets`:
`filteredWallets?.filter(wallet => !wallet.isFeatured)`. -/
def nonFeaturedWallets (filteredWallets : List TSupportedWalletData) :
    List TSupportedWalletData :=
  filteredWallets.filter fun wallet => !wallet.isFeatured

lemma count_filter_add_count_filter_not {α : Type} [BEq α] (l : List α)
    (p : α → Bool) (x : α) :
    (l.filter p).count x + (l.filter fun a => !p a).count x = l.count x := by
  induction l with
  | nil => rfl
  | cons a t ih =>
    cases hp : p a <;>
      simp [List.filter_cons, hp, List.count_cons] <;>
      omega

/-- C10: for both wrappers, the featured and non-featured lists partition the
filtered list: an item is in the featured list iff it is in the filtered list
with its `isFeatured` flag set, in the non-featured list iff it is in the
filtered list with the flag clear, and occurrence counts are preserved, so no
item is dropped or duplicated across the two sections. -/
theorem c10_featured_partition (filteredProtocols : List TSupportedProtocolData)
    (filteredWallets : List TSupportedWalletData) :
    (∀ p, (p ∈ featuredProtocols filteredProtocols ↔
            p ∈ filteredProtocols ∧ p.isFeatured = true) ∧
          (p ∈ nonFeaturedProtocols filteredProtocols ↔
            p ∈ filteredProtocols ∧ p.isFeatured = false)) ∧
    (∀ p, (featuredProtocols filteredProtocols).count p +
            (nonFeaturedProtocols filteredProtocols).count p =
          filteredProtocols.count p) ∧
    (∀ w, (w ∈ featuredWallets filteredWallets ↔
            w ∈ filteredWallets ∧ w.isFeatured = true) ∧
          (w ∈ nonFeaturedWallets filteredWallets ↔
            w ∈ filteredWallets ∧ w.isFeatured = false)) ∧
    (∀ w, (featuredWallets filteredWallets).count w +
            (nonFeaturedWallets filteredWallets).count w =
          filteredWallets.count w) := by
  refine ⟨fun p => ⟨?_, ?_⟩, fun p => ?_, fun w => ⟨?_, ?_⟩, fun w => ?_⟩
  · simp [featuredProtocols, List.mem_filter]
  · simp [nonFeaturedProtocols, List.mem_filter]
  · exact count_filter_add_count_filter_not filteredProtocols _ p
  · simp [featuredWallets, List.mem_filter]
  · simp [nonFeaturedWallets, List.mem_filter]
  · exact count_filter_add_count_filter_not filteredWallets _ w

/-! ## C6: `ResourceGrid` (src/app/(resources)/_components/ResourceGrid.tsx) -/

/-- The possible render outcomes of `ResourceGrid`: the loading placeholder,
the empty-state message, or the grid of rendered item cards. -/
inductive GridRender (β : Type) where
  | loading
  | emptyState (message : String)
  | grid (cards : List β)
deriving DecidableEq

/-- Default of `ResourceGrid`'s `emptyMessage` prop. -/
def resourceGridDefaultEmptyMessage : String := "No items available yet."

/-- `ResourceGrid`: if `isLoading`, the loading placeholder; if `items` is
null/undefined or empty, the empty state with `emptyMessage`; otherwise one
card per item via `items.map((item, index) => renderItem(item, index))`. -/
def ResourceGrid {α β : Type} (items : Option (List α))
    (renderItem : α → Nat → β) (isLoading : Bool) (emptyMessage : String) :
    GridRender β :=
  if isLoading then .loading
  else
    match items with
    | none => .emptyState emptyMessage
    | some l =>
      if l.length = 0 then .emptyState emptyMessage
      else .grid (l.mapIdx fun index item => renderItem item index)

/-- C6: with loading resolved, a null/undefined or empty items argument
renders the configured empty-state message (the default prop value being
"No items available yet.") and no cards, while a non-empty items list
renders exactly one card per item in input order and no empty-state
message. -/
theorem c6_resource_grid {α β : Type} (renderItem : α → Nat → β)
    (emptyMessage : String) :
    (ResourceGrid (none : Option (List α)) renderItem false emptyMessage =
      .emptyState emptyMessage) ∧
    (ResourceGrid (some ([] : List α)) renderItem false emptyMessage =
      .emptyState emptyMessage) ∧
    resourceGridDefaultEmptyMessage = "No items available yet." ∧
    (∀ x xs,
      ResourceGrid (some (x :: xs)) renderItem false emptyMessage =
        .grid ((x :: xs).mapIdx fun index item => renderItem item index) ∧
      ((x :: xs).mapIdx fun index item => renderItem item index).length =
        (x :: xs).length) := by
  refine ⟨rfl, rfl, rfl, fun x xs => ⟨?_, ?_⟩⟩
  · simp [ResourceGrid]
  · simp

/-! ## C4 / C9: CMS fetch utilities

`src/unnamed/part_009` (fetchAllProtocols, fetchAllChains, fetchAllWallets,
fetchDiscoverBySlug, fetchFaqData) and `fetchWithErrorHandling` from
`src/unnamed/part_020`.  A fetch is modelled by its emitted request (URL plus
init options) and by a function from the outcome of that request to the
value the utility returns. -/

/-- The parsed JSON envelope of a CMS response: the optional `data` field
(`none` models both a missing field and JSON `null`). -/
structure ApiResponseBody (α : Type) where
  data : Option α
deriving DecidableEq

/-- Outcome of one `fetch` call: either the promise rejects (network error,
caught by the utilities' `catch`), or a response arrives with its `ok` flag,
status code, and the result of `response.json()` (`Except.error` models a
body that is not valid JSON, which makes `json()` throw). -/
inductive FetchOutcome (α : Type) where
  | networkError (message : String)
  | response (ok : Bool) (status : Nat) (jsonBody : Except String (ApiResponseBody α))

/-- What a utility call does in the end: propagate a JavaScript exception, or
return a value (`none` models `null`). -/
inductive FetchResult (α : Type) where
  | thrown (message : String)
  | value (v : Option α)
deriving DecidableEq

/-- `fetchAllProtocols`: try { fetch; if (!response.ok) return null;
const data = await response.json(); return data.data || null } catch { return null }.
(In the success branch a JavaScript empty array is truthy, so
`data.data || null` returns the `data` field whenever it is present.) -/
def fetchAllProtocols (o : FetchOutcome (List TSupportedProtocolData)) :
    FetchResult (List TSupportedProtocolData) :=
  match o with
  | .networkError _ => .value none
  | .response ok _ jsonBody =>
    if ok then
      match jsonBody with
      | .error _ => .value none
      | .ok body => .value body.data
    else .value none

/-- A supported-chain record; only its presence matters to the utilities. -/
structure TSupportedChainData where
  name : String
  slug : String
deriving DecidableEq

/-- `fetchAllChains`, same shape as `fetchAllProtocols`. -/
def fetchAllChains (o : FetchOutcome (List TSupportedChainData)) :
    FetchResult (List TSupportedChainData) :=
  match o with
  | .networkError _ => .value none
  | .response ok _ jsonBody =>
    if ok then
      match jsonBody with
      | .error _ => .value none
      | .ok body => .value body.data
    else .value none

/-- `fetchAllWallets`, same shape as `fetchAllProtocols`. -/
def fetchAllWallets (o : FetchOutcome (List TSupportedWalletData)) :
    FetchResult (List TSupportedWalletData) :=
  match o with
  | .networkError _ => .value none
  | .response ok _ jsonBody =>
    if ok then
      match jsonBody with
      | .error _ => .value none
      | .ok body => .value body.data
    else .value none

/-- `fetchDiscoverBySlug`: on an OK response returns `data.data?.[0] || null`,
the first element of the `data` array when the field is present and
non-empty, `null` otherwise; errors and non-OK statuses yield `null`. -/
def fetchDiscoverBySlug (slug : String)
    (o : FetchOutcome (List TDiscoverData)) : FetchResult TDiscoverData :=
  match o with
  | .networkError _ => .value none
  | .response ok _ jsonBody =>
    if ok then
      match jsonBody with
      | .error _ => .value none
      | .ok body =>
        .value (match body.data with
          | none => none
          | some l => l.head?)
    else .value none

/-- FAQ content as one CMS record; its inner structure is irrelevant to the
fetch utilities. -/
structure TFaqData where
  title : String
deriving DecidableEq

/-- `fetchFaqData`, same shape as `fetchAllProtocols`. -/
def fetchFaqData (o : FetchOutcome TFaqData) : FetchResult TFaqData :=
  match o with
  | .networkError _ => .value none
  | .response ok _ jsonBody =>
    if ok then
      match jsonBody with
      | .error _ => .value none
      | .ok body => .value body.data
    else .value none

/-- `fetchWithErrorHandling<T>`: on an OK response returns `data.data`
directly; network errors, non-OK statuses and JSON failures yield `null`. -/
def fetchWithErrorHandling {α : Type} (endpoint queryParams errorContext : String)
    (o : FetchOutcome α) : FetchResult α :=
  match o with
  | .networkError _ => .value none
  | .response ok _ jsonBody =>
    if ok then
      match jsonBody with
      | .error _ => .value none
      | .ok body => .value body.data
    else .value none

/-- The specification's description of a list-returning fetch utility: never
throw; on a network error, a non-OK status or an unparsable body yield
`null`; on an OK response yield the `data` field, `null` when absent. -/
def specFetchResult {α : Type} (o : FetchOutcome α) : Option α :=
  match o with
  | .networkError _ => none
  | .response ok _ jsonBody =>
    if ok then
      match jsonBody with
      | .error _ => none
      | .ok body => body.data
    else none

/-- The specification's description of a slug-filtered fetch utility: as
`specFetchResult`, but yielding the first element of the `data` array,
`null` when absent. -/
def specFetchFirstResult {α : Type} (o : FetchOutcome (List α)) : Option α :=
  match specFetchResult o with
  | none => none
  | some l => l.head?

/-- C4: none of the CMS fetch utilities ever throws: every outcome of the
underlying request maps to a returned value, which is `null` on a network
error or non-OK status and the parsed `data` field (its first element for
the slug-filtered query) on an OK response, exactly as `specFetchResult` and
`specFetchFirstResult` describe. -/
theorem c4_fetch_utilities_never_throw
    (o₁ : FetchOutcome (List TSupportedProtocolData))
    (o₂ : FetchOutcome (List TSupportedChainData))
    (o₃ : FetchOutcome (List TSupportedWalletData))
    (o₄ : FetchOutcome (List TDiscoverData))
    (o₅ : FetchOutcome TFaqData) {α : Type} (o₆ : FetchOutcome α)
    (slug endpoint queryParams errorContext : String) :
    fetchAllProtocols o₁ = .value (specFetchResult o₁) ∧
    fetchAllChains o₂ = .value (specFetchResult o₂) ∧
    fetchAllWallets o₃ = .value (specFetchResult o₃) ∧
    fetchDiscoverBySlug slug o₄ = .value (specFetchFirstResult o₄) ∧
    fetchFaqData o₅ = .value (specFetchResult o₅) ∧
    fetchWithErrorHandling endpoint queryParams errorContext o₆ =
      .value (specFetchResult o₆) := by
  refine ⟨?_, ?_, ?_, ?_, ?_, ?_⟩
  · cases o₁ with
    | networkError m => rfl
    | response ok status jsonBody => cases ok <;> cases jsonBody <;> rfl
  · cases o₂ with
    | networkError m => rfl
    | response ok status jsonBody => cases ok <;> cases jsonBody <;> rfl
  · cases o₃ with
    | networkError m => rfl
    | response ok status jsonBody => cases ok <;> cases jsonBody <;> rfl
  · cases o₄ with
    | networkError m => rfl
    | response ok status jsonBody =>
      cases ok <;> cases jsonBody <;>
        first
        | rfl
        | (rename_i body
           cases hb : body.data <;>
             simp [fetchDiscoverBySlug, specFetchFirstResult, specFetchResult, hb])
  · cases o₅ with
    | networkError m => rfl
    | response ok status jsonBody => cases ok <;> cases jsonBody <;> rfl
  · cases o₆ with
    | networkError m => rfl
    | response ok status jsonBody => cases ok <;> cases jsonBody <;> rfl

/-! ## C9: the emitted HTTP requests are all reads -/

/-- The init options the utilities pass to `fetch`.  `apiConfig`
(src/unnamed/part_009) and the inline object of `fetchWithErrorHandling`
(src/unnamed/part_020) set only an `Authorization` header and a Next.js
`revalidate` period; they set no `method` and no `body`. -/
structure FetchInit where
  method : Option String
  body : Option String
  hasAuthHeader : Bool
  revalidateSeconds : Option Nat
deriving DecidableEq

/-- One HTTP request as emitted by a utility: the URL and the init options. -/
structure CmsRequest where
  url : String
  init : FetchInit
deriving DecidableEq

/-- `apiConfig`: Authorization header plus `revalidate: 3600`, nothing else. -/
def apiConfig : FetchInit :=
  { method := none, body := none, hasAuthHeader := true,
    revalidateSeconds := some 3600 }

/-- The HTTP method a `fetch` call uses: the `method` override when present,
otherwise the JavaScript default `GET`. -/
def effectiveMethod (init : FetchInit) : String := init.method.getD "GET"

/-- The request emitted by `fetchAllProtocols`. -/
def fetchAllProtocolsRequest (strapiUrl : String) : CmsRequest :=
  { url := strapiUrl ++ "/api/supported-protocols?populate=*", init := apiConfig }

/-- The request emitted by `fetchAllChains`. -/
def fetchAllChainsRequest (strapiUrl : String) : CmsRequest :=
  { url := strapiUrl ++ "/api/supported-chains?populate=*", init := apiConfig }

/-- The request emitted by `fetchAllWallets`. -/
def fetchAllWalletsRequest (strapiUrl : String) : CmsRequest :=
  { url := strapiUrl ++ "/api/supported-wallets?populate=*", init := apiConfig }

/-- The request emitted by `fetchDiscoverBySlug`. -/
def fetchDiscoverBySlugRequest (strapiUrl slug : String) : CmsRequest :=
  { url := strapiUrl ++ "/api/discovers?filters[slug][$eq]=" ++ slug ++
      "&populate[0]=features&fields[1]=title&fields[2]=description" ++
      "&populate[3]=featuredImg&populate[4]=features.image&fields[5]=tag" ++
      "&populate[6]=features.buttonCta",
    init := apiConfig }

/-- The request emitted by `fetchFaqData`. -/
def fetchFaqDataRequest (strapiUrl : String) : CmsRequest :=
  { url := strapiUrl ++ "/api/faq?populate[faqSection][populate][faqSectionItem][populate]=*",
    init := apiConfig }

/-- The request emitted by `fetchWithErrorHandling`: its inline init object
repeats `apiConfig` (Authorization header, `revalidate: 3600`). -/
def fetchWithErrorHandlingRequest (strapiUrl endpoint queryParams : String) :
    CmsRequest :=
  { url := strapiUrl ++ "/api/" ++ endpoint ++ "?" ++ queryParams,
    init := { method := none, body := none, hasAuthHeader := true,
              revalidateSeconds := some 3600 } }

/-- C9: for every fetch utility and every input, the emitted request has no
method override and no body, so its effective method is GET; none of the
requests this code issues to the CMS can create, edit or delete a record. -/
theorem c9_all_requests_are_get (strapiUrl slug endpoint queryParams : String) :
    ((fetchAllProtocolsRequest strapiUrl).init.method = none ∧
      (fetchAllProtocolsRequest strapiUrl).init.body = none ∧
      effectiveMethod (fetchAllProtocolsRequest strapiUrl).init = "GET") ∧
    ((fetchAllChainsRequest strapiUrl).init.method = none ∧
      (fetchAllChainsRequest strapiUrl).init.body = none ∧
      effectiveMethod (fetchAllChainsRequest strapiUrl).init = "GET") ∧
    ((fetchAllWalletsRequest strapiUrl).init.method = none ∧
      (fetchAllWalletsRequest strapiUrl).init.body = none ∧
      effectiveMethod (fetchAllWalletsRequest strapiUrl).init = "GET") ∧
    ((fetchDiscoverBySlugRequest strapiUrl slug).init.method = none ∧
      (fetchDiscoverBySlugRequest strapiUrl slug).init.body = none ∧
      effectiveMethod (fetchDiscoverBySlugRequest strapiUrl slug).init = "GET") ∧
    ((fetchFaqDataRequest strapiUrl).init.method = none ∧
      (fetchFaqDataRequest strapiUrl).init.body = none ∧
      effectiveMethod (fetchFaqDataRequest strapiUrl).init = "GET") ∧
    ((fetchWithErrorHandlingRequest strapiUrl endpoint queryParams).init.method = none ∧
      (fetchWithErrorHandlingRequest strapiUrl endpoint queryParams).init.body = none ∧
      effectiveMethod (fetchWithErrorHandlingRequest strapiUrl endpoint queryParams).init =
        "GET") :=
  ⟨⟨rfl, rfl, rfl⟩, ⟨rfl, rfl, rfl⟩, ⟨rfl, rfl, rfl⟩, ⟨rfl, rfl, rfl⟩,
    ⟨rfl, rfl, rfl⟩, ⟨rfl, rfl, rfl⟩⟩

/-! ## C2 / C5: detail pages (blog, newsroom, protocol)

`BlogPost` (src/unnamed/part_006) and `NewsroomPostPage`
(src/app/(resources)/newsroom/[slug]/page.tsx) read the cached-posts context,
call the fetch hook with `skip` set when the slug is already cached, and
render the first matching element of cached plus fetched items.  The hooks
`useFetchPosts` / `useFetchNewsroom` themselves are not under the sources and
are modelled from the specification. -/

/-- A blog post record; the detail page matches on `slug` and renders
`content`. -/
structure TBlogPost where
  slug : String
  content : String
deriving DecidableEq

/-- A newsroom post record, same shape as `TBlogPost`. -/
structure TNewsPost where
  slug : String
  content : String
deriving DecidableEq

/-- What a fetch hook call produces: the posts it returns and the number of
network requests it issued. -/
structure UseFetchResult (α : Type) where
  posts : List α
  requests : Nat
deriving DecidableEq

/-- Modelled from the spec: the `useFetchPosts` hook (its module is absent
from the sources).  Given the content type, a page, a slug filter and the
`skip` flag, it issues one HTTP GET to the CMS and returns the page of
items; when `skip` is set it skips the refetch, issuing no request and
returning no items.  `cmsPosts` stands for the CMS store; the slug filter
returns the records whose slug equals the argument. -/
def useFetchPosts (slug : String) (skip : Bool) (cmsPosts : List TBlogPost) :
    UseFetchResult TBlogPost :=
  if skip then { posts := [], requests := 0 }
  else { posts := cmsPosts.filter fun p => p.slug == slug, requests := 1 }

/-- Modelled from the spec: the `useFetchNewsroom` hook, shaped exactly like
`useFetchPosts` over newsroom records. -/
def useFetchNewsroom (slug : String) (skip : Bool) (cmsPosts : List TNewsPost) :
    UseFetchResult TNewsPost :=
  if skip then { posts := [], requests := 0 }
  else { posts := cmsPosts.filter fun p => p.slug == slug, requests := 1 }

/-- `BlogPost`'s `skip` argument:
`!!cachedPosts.find(p => p.slug === slug)`. -/
def blogPostSkip (cachedPosts : List TBlogPost) (slug : String) : Bool :=
  (cachedPosts.find? fun p => p.slug == slug).isSome

/-- The hook call made by `BlogPost`. -/
def blogPostHook (cachedPosts cmsPosts : List TBlogPost) (slug : String) :
    UseFetchResult TBlogPost :=
  useFetchPosts slug (blogPostSkip cachedPosts slug) cmsPosts

/-- `BlogPost`'s `post`:
`[...cachedPosts, ...posts].find(p => p.slug === slug)`. -/
def blogPostRendered (cachedPosts cmsPosts : List TBlogPost) (slug : String) :
    Option TBlogPost :=
  (cachedPosts ++ (blogPostHook cachedPosts cmsPosts slug).posts).find?
    fun p => p.slug == slug

/-- The number of network requests the `BlogPost` page causes. -/
def blogPostRequests (cachedPosts cmsPosts : List TBlogPost) (slug : String) :
    Nat :=
  (blogPostHook cachedPosts cmsPosts slug).requests

/-- `NewsroomPostPage`'s `skip` argument, same shape as `blogPostSkip`. -/
def newsroomPostSkip (cachedPosts : List TNewsPost) (slug : String) : Bool :=
  (cachedPosts.find? fun p => p.slug == slug).isSome

/-- The hook call made by `NewsroomPostPage`. -/
def newsroomPostHook (cachedPosts cmsPosts : List TNewsPost) (slug : String) :
    UseFetchResult TNewsPost :=
  useFetchNewsroom slug (newsroomPostSkip cachedPosts slug) cmsPosts

/-- `NewsroomPostPage`'s `post`, same shape as `blogPostRendered`. -/
def newsroomPostRendered (cachedPosts cmsPosts : List TNewsPost) (slug : String) :
    Option TNewsPost :=
  (cachedPosts ++ (newsroomPostHook cachedPosts cmsPosts slug).posts).find?
    fun p => p.slug == slug

/-- The number of network requests the `NewsroomPostPage` page causes. -/
def newsroomPostRequests (cachedPosts cmsPosts : List TNewsPost) (slug : String) :
    Nat :=
  (newsroomPostHook cachedPosts cmsPosts slug).requests

/-- What a detail page renders: the loading skeleton, the `notFound()`
transition, or the content of a record. -/
inductive PageRender (α : Type) where
  | loadingSkeleton
  | notFoundPage
  | content (item : α)
deriving DecidableEq

/-- `BlogPost`'s render: `if (isLoading) return <BlogSkeleton/>;
if (!post) notFound(); return <article>...</article>`. -/
def BlogPost (cachedPosts cmsPosts : List TBlogPost) (slug : String)
    (isLoading : Bool) : PageRender TBlogPost :=
  if isLoading then .loadingSkeleton
  else
    match blogPostRendered cachedPosts cmsPosts slug with
    | none => .notFoundPage
    | some p => .content p

/-- `NewsroomPostPage`'s render, same shape as `BlogPost`. -/
def NewsroomPostPage (cachedPosts cmsPosts : List TNewsPost) (slug : String)
    (isLoading : Bool) : PageRender TNewsPost :=
  if isLoading then .loadingSkeleton
  else
    match newsroomPostRendered cachedPosts cmsPosts slug with
    | none => .notFoundPage
    | some p => .content p

/-- Modelled from the spec: `getSupportedProtocol`
(`@/components/utils/query`, absent from the sources) fetches the protocol
record whose slug matches, yielding `null` when the CMS has no matching
record or the fetch fails. -/
def getSupportedProtocol (cmsProtocols : List TSupportedProtocolData)
    (slug : String) : Option TSupportedProtocolData :=
  cmsProtocols.find? fun p => p.slug == slug

/-- `ProtocolPage` (src/unnamed/part_020): `const protocol = await
getSupportedProtocol(slug); if (!protocol) return notFound(); return ...`. -/
def ProtocolPage (cmsProtocols : List TSupportedProtocolData) (slug : String) :
    PageRender TSupportedProtocolData :=
  match getSupportedProtocol cmsProtocols slug with
  | none => .notFoundPage
  | some p => .content p

/-- C2: when the cached-posts (resp. cached-news) context already holds an
item with the requested slug, the detail page passes `skip = true` to the
fetch hook, the hook issues zero network requests, and the rendered post is
the first element of the cached items concatenated with the slug-matching
freshly fetched items. -/
theorem c2_cached_slug_skips_fetch (cachedPosts cmsPosts : List TBlogPost)
    (cachedNews cmsNews : List TNewsPost) (slug : String)
    (hb : (cachedPosts.find? fun p => p.slug == slug).isSome = true)
    (hn : (cachedNews.find? fun p => p.slug == slug).isSome = true) :
    blogPostSkip cachedPosts slug = true ∧
    blogPostRequests cachedPosts cmsPosts slug = 0 ∧
    blogPostRendered cachedPosts cmsPosts slug =
      (cachedPosts ++ cmsPosts.filter fun p => p.slug == slug).find?
        (fun p => p.slug == slug) ∧
    newsroomPostSkip cachedNews slug = true ∧
    newsroomPostRequests cachedNews cmsNews slug = 0 ∧
    newsroomPostRendered cachedNews cmsNews slug =
      (cachedNews ++ cmsNews.filter fun p => p.slug == slug).find?
        (fun p => p.slug == slug) := by
  have hbskip : blogPostSkip cachedPosts slug = true := hb
  have hnskip : newsroomPostSkip cachedNews slug = true := hn
  obtain ⟨pb, hpb⟩ := Option.isSome_iff_exists.mp hb
  obtain ⟨pn, hpn⟩ := Option.isSome_iff_exists.mp hn
  refine ⟨hbskip, ?_, ?_, hnskip, ?_, ?_⟩
  · simp [blogPostRequests, blogPostHook, useFetchPosts, hbskip]
  · simp [blogPostRendered, blogPostHook, useFetchPosts, hbskip,
      List.find?_append, hpb]
  · simp [newsroomPostRequests, newsroomPostHook, useFetchNewsroom, hnskip]
  · simp [newsroomPostRendered, newsroomPostHook, useFetchNewsroom, hnskip,
      List.find?_append, hpn]

/-- C2 witness: with the post of slug "alpha" already cached, the blog and
newsroom detail pages issue no request and render the cached post. -/
theorem c2_witness :
    ((([⟨"alpha", "body"⟩] : List TBlogPost).find? fun p => p.slug == "alpha").isSome
        = true ∧
      (([⟨"alpha", "news"⟩] : List TNewsPost).find? fun p => p.slug == "alpha").isSome
        = true) ∧
    blogPostRequests [⟨"alpha", "body"⟩] [⟨"alpha", "stale"⟩] "alpha" = 0 ∧
    blogPostRendered [⟨"alpha", "body"⟩] [⟨"alpha", "stale"⟩] "alpha" =
      some ⟨"alpha", "body"⟩ := by
  have h := c2_cached_slug_skips_fetch [⟨"alpha", "body"⟩] [⟨"alpha", "stale"⟩]
    [⟨"alpha", "news"⟩] [⟨"alpha", "news2"⟩] "alpha" (by decide) (by decide)
  refine ⟨⟨by decide, by decide⟩, h.2.1, ?_⟩
  rw [h.2.2.1]
  decide

/-- C5: once loading has resolved, a detail page whose slug matches no CMS
record (neither cached nor fetched) renders the not-found transition, and no
detail page ever renders content for a record whose slug differs from the
requested one. -/
theorem c5_missing_slug_not_found (cachedPosts cmsPosts : List TBlogPost)
    (cachedNews cmsNews : List TNewsPost)
    (cmsProtocols : List TSupportedProtocolData) (slug : String)
    (hb : ∀ p ∈ cachedPosts ++ cmsPosts, (p.slug == slug) = false)
    (hn : ∀ p ∈ cachedNews ++ cmsNews, (p.slug == slug) = false)
    (hp : ∀ p ∈ cmsProtocols, (p.slug == slug) = false) :
    BlogPost cachedPosts cmsPosts slug false = .notFoundPage ∧
    NewsroomPostPage cachedNews cmsNews slug false = .notFoundPage ∧
    ProtocolPage cmsProtocols slug = .notFoundPage ∧
    (∀ (cp cm : List TBlogPost) (s : String) (p : TBlogPost),
      BlogPost cp cm s false = .content p → (p.slug == s) = true) ∧
    (∀ (cp cm : List TNewsPost) (s : String) (p : TNewsPost),
      NewsroomPostPage cp cm s false = .content p → (p.slug == s) = true) ∧
    (∀ (cm : List TSupportedProtocolData) (s : String)
        (p : TSupportedProtocolData),
      ProtocolPage cm s = .content p → (p.slug == s) = true) := by
  refine ⟨?_, ?_, ?_, ?_, ?_, ?_⟩
  · have h1 : blogPostRendered cachedPosts cmsPosts slug = none := by
      unfold blogPostRendered
      refine List.find?_eq_none.mpr fun x hx => ?_
      have hx2 : x ∈ cachedPosts ++ cmsPosts := by
        rcases List.mem_append.mp hx with h | h
        · exact List.mem_append.mpr (Or.inl h)
        · refine List.mem_append.mpr (Or.inr ?_)
          rcases hskip : blogPostSkip cachedPosts slug <;>
            rw [blogPostHook, useFetchPosts, hskip] at h
          · exact (List.mem_filter.mp h).1
          · exact absurd h (List.not_mem_nil x)
      simp [hb x hx2]
    simp [BlogPost, h1]
  · have h1 : newsroomPostRendered cachedNews cmsNews slug = none := by
      unfold newsroomPostRendered
      refine List.find?_eq_none.mpr fun x hx => ?_
      have hx2 : x ∈ cachedNews ++ cmsNews := by
        rcases List.mem_append.mp hx with h | h
        · exact List.mem_append.mpr (Or.inl h)
        · refine List.mem_append.mpr (Or.inr ?_)
          rcases hskip : newsroomPostSkip cachedNews slug <;>
            rw [newsroomPostHook, useFetchNewsroom, hskip] at h
          · exact (List.mem_filter.mp h).1
          · exact absurd h (List.not_mem_nil x)
      simp [hn x hx2]
    simp [NewsroomPostPage, h1]
  · have h1 : getSupportedProtocol cmsProtocols slug = none := by
      unfold getSupportedProtocol
      exact List.find?_eq_none.mpr fun x hx => by simp [hp x hx]
    simp [ProtocolPage, h1]
  · intro cp cm s p h
    unfold BlogPost at h
    simp only [if_neg Bool.false_ne_true] at h
    rcases hfp : blogPostRendered cp cm s with _ | q
    · rw [hfp] at h; exact absurd h (by simp)
    · rw [hfp] at h
      have hq : q = p := by simpa using h
      subst hq
      unfold blogPostRendered at hfp
      simpa using List.find?_some hfp
  · intro cp cm s p h
    unfold NewsroomPostPage at h
    simp only [if_neg Bool.false_ne_true] at h
    rcases hfp : newsroomPostRendered cp cm s with _ | q
    · rw [hfp] at h; exact absurd h (by simp)
    · rw [hfp] at h
      have hq : q = p := by simpa using h
      subst hq
      unfold newsroomPostRendered at hfp
      simpa using List.find?_some hfp
  · intro cm s p h
    unfold ProtocolPage at h
    rcases hfp : getSupportedProtocol cm s with _ | q
    · rw [hfp] at h; exact absurd h (by simp)
    · rw [hfp] at h
      have hq : q = p := by simpa using h
      subst hq
      unfold getSupportedProtocol at hfp
      simpa using List.find?_some hfp

/-- C5 witness: with no record of slug "missing" anywhere, all three detail
pages resolve to the not-found state. -/
theorem c5_witness :
    BlogPost [⟨"alpha", "body"⟩] [] "missing" false = .notFoundPage ∧
    NewsroomPostPage [] [⟨"alpha", "news"⟩] "missing" false = .notFoundPage ∧
    ProtocolPage [⟨"uni", true, "uni", "Uni", "swap"⟩] "missing" =
      .notFoundPage := by
  have h := c5_missing_slug_not_found [⟨"alpha", "body"⟩] []
    [] [⟨"alpha", "news"⟩] [⟨"uni", true, "uni", "Uni", "swap"⟩] "missing"
    (by decide) (by decide) (by decide)
  exact ⟨h.1, h.2.1, h.2.2.1⟩

/-! ## C3: paginated newsroom list

`NewsroomList` (src/app/(resources)/newsroom/(withNavigation)/page.tsx) and
`ListOfPosts` (src/unnamed/part_004) keep `page` state starting at 1 and
wire `ReactPaginate`'s `onPageChange={({selected}) => setPage(selected + 1)}`.
The `useFetchNewsroom` hook is absent from the sources; the specification
says it triggers a new fetch whenever its page parameter changes. -/

/-- The client state of a paginated list page: the pagination control's
zero-based selected index, the component's one-based `page` state, and the
pages a fetch was issued for, in order. -/
structure PaginatedListState where
  selected : Nat
  page : Nat
  fetchedPages : List Nat
deriving DecidableEq

/-- Initial state: `useState(1)` for the page, the control on index 0, and
the mount-time fetch of page 1 (modelled from the spec: fetch-on-mount). -/
def initialNewsroomListState : PaginatedListState :=
  { selected := 0, page := 1, fetchedPages := [1] }

/-- `setPage` plus the refetch effect.  Modelled from the spec for the part
that is not under the sources: the hook triggers a new fetch exactly when
its page parameter changes. -/
def setPage (st : PaginatedListState) (p : Nat) : PaginatedListState :=
  if p = st.page then { st with page := p }
  else { st with page := p, fetchedPages := st.fetchedPages ++ [p] }

/-- `onPageChange={({selected}) => setPage(selected + 1)}`: the control moves
to zero-based index `selected` and the component's page becomes
`selected + 1`. -/
def onPageChange (st : PaginatedListState) (selected : Nat) :
    PaginatedListState :=
  { setPage st (selected + 1) with selected := selected }

/-- A click on the control's "next" arrow: `ReactPaginate` advances its
zero-based selection by one when not already on the last of `pageCount`
pages, and reports the new index through `onPageChange`. -/
def clickNext (pageCount : Nat) (st : PaginatedListState) :
    PaginatedListState :=
  if st.selected + 1 < pageCount then onPageChange st (st.selected + 1) else st

/-- C3: a click reported with zero-based index `k` different from the
current page minus one sets `page` to `k + 1` and appends a fetch for page
`k + 1`; concretely, with `pageCount = 3`, two "next" clicks from the
initial state land on one-based display index 3 with fetches issued for
pages 1, 2 and 3 and no further fetch beyond those. -/
theorem c3_pagination (st : PaginatedListState) (k : Nat)
    (h : k + 1 ≠ st.page) :
    ((onPageChange st k).page = k + 1 ∧
      (onPageChange st k).selected = k ∧
      (onPageChange st k).fetchedPages = st.fetchedPages ++ [k + 1]) ∧
    (clickNext 3 (clickNext 3 initialNewsroomListState)).selected + 1 = 3 ∧
    (clickNext 3 (clickNext 3 initialNewsroomListState)).page = 3 ∧
    (clickNext 3 (clickNext 3 initialNewsroomListState)).fetchedPages =
      [1, 2, 3] := by
  refine ⟨⟨?_, ?_, ?_⟩, ?_, ?_, ?_⟩ <;>
    simp [onPageChange, setPage, clickNext, initialNewsroomListState, h]

/-- C3 witness: clicking index 4 from the initial state fetches page 5, and
the two-next-clicks scenario displays page 3 having fetched page 3. -/
theorem c3_witness :
    (4 + 1 ≠ initialNewsroomListState.page) ∧
    (onPageChange initialNewsroomListState 4).page = 5 ∧
    (onPageChange initialNewsroomListState 4).fetchedPages = [1, 5] ∧
    (clickNext 3 (clickNext 3 initialNewsroomListState)).page = 3 ∧
    (clickNext 3 (clickNext 3 initialNewsroomListState)).fetchedPages =
      [1, 2, 3] := by
  have h := c3_pagination initialNewsroomListState 4 (by decide)
  exact ⟨by decide, h.1.1, by rw [h.1.2.2]; rfl, h.2.2.1, h.2.2.2⟩

/-! ## C7 / C8: FAQ scroll-spy
(src/app/(resources)/_components/FAQContent.tsx) -/

/-- One measured FAQ section heading: its title and the top of its bounding
rect (`element?.getBoundingClientRect().top ?? 0`), in CSS pixels relative
to the viewport top. -/
structure SectionPosition where
  title : String
  top : Int
deriving DecidableEq

/-- The distance `Math.abs(top - 160)` to the fixed 160-pixel offset. -/
def distanceTo160 (p : SectionPosition) : Nat := (p.top - 160).natAbs

/-- The reducer body of `handleScroll`:
`(closest, current) => currentDistance < closestDistance ? current : closest`. -/
def closerSection (closest current : SectionPosition) : SectionPosition :=
  if distanceTo160 current < distanceTo160 closest then current else closest

/-- `handleScroll`'s `closestSection`:
`sectionPositions.reduce(closerSection, sectionPositions[0] || {title: '', top: 0})`.
A JavaScript `reduce` with an initial value folds over the whole array. -/
def closestSection (sectionPositions : List SectionPosition) : SectionPosition :=
  sectionPositions.foldl closerSection
    (sectionPositions.headD { title := "", top := 0 })

/-- The component state the scroll-spy manipulates: the highlighted section
title and the `isManualScrolling` ref. -/
structure FAQContentState where
  activeSection : String
  isManualScrolling : Bool
deriving DecidableEq

/-- The events that touch that state: a scroll with the measured section
positions, a sidebar-link click on a section title (with whether the
section's element is registered), and the 500 ms timeout scheduled by the
click. -/
inductive FAQEvent where
  | scroll (sectionPositions : List SectionPosition)
  | click (sectionTitle : String) (elementRegistered : Bool)
  | timeout
deriving DecidableEq

/-- `handleScroll`: return untouched while `isManualScrolling`, otherwise set
the active section to the title of the reduced closest section. -/
def handleScroll (st : FAQContentState)
    (sectionPositions : List SectionPosition) : FAQContentState :=
  if st.isManualScrolling then st
  else { st with activeSection := (closestSection sectionPositions).title }

/-- `scrollToSection`: return early when the section's element is not
registered; otherwise raise `isManualScrolling` and set the active section
immediately. -/
def scrollToSection (st : FAQContentState) (sectionTitle : String)
    (elementRegistered : Bool) : FAQContentState :=
  if elementRegistered then
    { activeSection := sectionTitle, isManualScrolling := true }
  else st

/-- One step of the FAQ scroll-spy: dispatch an event to the handler the
component wires for it (the timeout clears `isManualScrolling`). -/
def faqStep (st : FAQContentState) : FAQEvent → FAQContentState
  | .scroll ps => handleScroll st ps
  | .click s registered => scrollToSection st s registered
  | .timeout => { st with isManualScrolling := false }

/-- The first minimizer of `distanceTo160` in `a :: l`: keep the accumulator
unless a strictly closer element appears. -/
def firstMinAux : SectionPosition → List SectionPosition → SectionPosition
  | a, [] => a
  | a, c :: t =>
    let m := firstMinAux c t
    if distanceTo160 m < distanceTo160 a then m else a

lemma firstMinAux_closerSection (a c : SectionPosition)
    (t : List SectionPosition) :
    firstMinAux (closerSection a c) t = firstMinAux a (c :: t) := by
  cases t with
  | nil =>
    simp [firstMinAux, closerSection]
  | cons d u =>
    simp only [firstMinAux, closerSection]
    split_ifs <;> first | rfl | omega

lemma foldl_closerSection (l : List SectionPosition) (a : SectionPosition) :
    List.foldl closerSection a l = firstMinAux a l := by
  induction l generalizing a with
  | nil => rfl
  | cons c t ih => rw [List.foldl_cons, ih, firstMinAux_closerSection]

lemma firstMinAux_mem (a : SectionPosition) (l : List SectionPosition) :
    firstMinAux a l ∈ a :: l := by
  induction l generalizing a with
  | nil => simp [firstMinAux]
  | cons c t ih =>
    simp only [firstMinAux]
    split
    · exact List.mem_cons_of_mem a (ih c)
    · exact List.mem_cons_self a (c :: t)

lemma firstMinAux_le (a : SectionPosition) (l : List SectionPosition) :
    ∀ q ∈ a :: l, distanceTo160 (firstMinAux a l) ≤ distanceTo160 q := by
  induction l generalizing a with
  | nil =>
    intro q hq
    have : q = a := by simpa using hq
    subst this
    simp [firstMinAux]
  | cons c t ih =>
    intro q hq
    simp only [firstMinAux]
    rcases List.mem_cons.mp hq with rfl | hq2
    · split
      · next h => exact Nat.le_of_lt h
      · exact Nat.le_refl _
    · have hrec := ih c q hq2
      split
      · exact hrec
      · next h => omega

lemma findPred_congr {α : Type} {p q : α → Bool} (l : List α)
    (h : ∀ x ∈ l, p x = q x) : l.find? p = l.find? q := by
  induction l with
  | nil => rfl
  | cons a t ih =>
    have ha := h a (List.mem_cons_self a t)
    simp only [List.find?_cons, ha]
    cases hqa : q a with
    | true => rfl
    | false => exact ih fun x hx => h x (List.mem_cons_of_mem a hx)

lemma firstMinAux_eq_findq (a : SectionPosition) (l : List SectionPosition) :
    (a :: l).find?
        (fun q => (a :: l).all fun r => distanceTo160 q ≤ distanceTo160 r) =
      some (firstMinAux a l) := by
  induction l generalizing a with
  | nil => simp [firstMinAux]
  | cons c t ih =>
    have hm_mem := firstMinAux_mem c t
    have hm_le := firstMinAux_le c t
    by_cases h : distanceTo160 (firstMinAux c t) < distanceTo160 a
    · have hpa :
          ((a :: c :: t).all fun r => distanceTo160 a ≤ distanceTo160 r) =
            false := by
        refine List.all_eq_false.mpr ⟨firstMinAux c t, ?_, ?_⟩
        · exact List.mem_cons_of_mem a hm_mem
        · simp
          omega
      rw [List.find?_cons, hpa]
      have hcongr :
          (c :: t).find?
              (fun q => (a :: c :: t).all fun r =>
                distanceTo160 q ≤ distanceTo160 r) =
            (c :: t).find?
              (fun q => (c :: t).all fun r =>
                distanceTo160 q ≤ distanceTo160 r) := by
        refine findPred_congr (c :: t) fun x hx => ?_
        by_cases hall :
            ((c :: t).all fun r => distanceTo160 x ≤ distanceTo160 r) = true
        · have hxa : distanceTo160 x ≤ distanceTo160 a := by
            have := List.all_eq_true.mp hall (firstMinAux c t) hm_mem
            simp at this
            omega
          simp only [List.all_cons]
          simp [hall, hxa]
        · have hallf :
              ((c :: t).all fun r => distanceTo160 x ≤ distanceTo160 r) =
                false := Bool.eq_false_iff.mpr hall
          simp only [List.all_cons] at hallf ⊢
          simp only [Bool.and_eq_false_iff] at hallf
          rcases hallf with h1 | h2
          · simp [h1]
          · simp [h2]
      rw [hcongr, ih c]
      simp only [firstMinAux]
      rw [if_pos h]
    · have hpa :
          ((a :: c :: t).all fun r => distanceTo160 a ≤ distanceTo160 r) =
            true := by
        refine List.all_eq_true.mpr fun r hr => ?_
        rcases List.mem_cons.mp hr with rfl | hr2
        · simp
        · have := hm_le r hr2
          simp
          omega
      rw [List.find?_cons, hpa]
      simp only [firstMinAux]
      rw [if_neg h]

/-- The specification side of the scroll-spy: the first section of the
measured list whose distance to the 160-pixel offset is no larger than any
other section's, i.e. the earliest section of minimal distance. -/
def firstClosestSection (sectionPositions : List SectionPosition) :
    Option SectionPosition :=
  sectionPositions.find? fun q =>
    sectionPositions.all fun r => distanceTo160 q ≤ distanceTo160 r

/-- C7: on a scroll with a non-empty list of measured headings (and manual
scrolling not in progress), the handler sets the active section to the title
of the earliest section minimizing the distance `|top - 160|`. -/
theorem c7_scroll_picks_first_closest (st : FAQContentState)
    (ps : List SectionPosition) (h : ps ≠ [])
    (hm : st.isManualScrolling = false) :
    firstClosestSection ps = some (closestSection ps) ∧
    (faqStep st (.scroll ps)).activeSection = (closestSection ps).title := by
  obtain ⟨a, t, rfl⟩ := List.exists_cons_of_ne_nil h
  have hfold : closestSection (a :: t) = firstMinAux a t := by
    have hstep : closerSection a a = a := by
      simp [closerSection]
    rw [closestSection]
    simp only [List.headD_cons, List.foldl_cons, hstep]
    exact foldl_closerSection t a
  constructor
  · rw [hfold, firstClosestSection]
    exact firstMinAux_eq_findq a t
  · simp [faqStep, handleScroll, hm]

/-- C7 witness: with headings at tops 100 and 220 (both at distance 60 from
the offset) followed by one at distance 140, the earliest of the tied
closest sections, "intro", becomes active. -/
theorem c7_scroll_witness :
    firstClosestSection
        [⟨"intro", 100⟩, ⟨"fees", 220⟩, ⟨"wallets", 300⟩] =
      some ⟨"intro", 100⟩ ∧
    (faqStep ⟨"", false⟩
        (.scroll [⟨"intro", 100⟩, ⟨"fees", 220⟩, ⟨"wallets", 300⟩])).activeSection =
      "intro" := by
  have h := c7_scroll_picks_first_closest ⟨"", false⟩
    [⟨"intro", 100⟩, ⟨"fees", 220⟩, ⟨"wallets", 300⟩] (by decide) rfl
  obtain ⟨h1, h2⟩ := h
  have hc : closestSection [⟨"intro", 100⟩, ⟨"fees", 220⟩, ⟨"wallets", 300⟩] =
      ⟨"intro", 100⟩ := by decide
  exact ⟨by rw [h1, hc], by rw [h2, hc]⟩

/-- Is an event a scroll event? -/
def isScrollEvent : FAQEvent → Bool
  | .scroll _ => true
  | _ => false

lemma foldl_faqStep_of_manual (evs : List FAQEvent) (st : FAQContentState)
    (hman : st.isManualScrolling = true)
    (h : ∀ e ∈ evs, isScrollEvent e = true) :
    List.foldl faqStep st evs = st := by
  induction evs with
  | nil => rfl
  | cons e t ih =>
    have he := h e (List.mem_cons_self e t)
    cases e with
    | scroll ps =>
      rw [List.foldl_cons]
      have hstep : faqStep st (.scroll ps) = st := by
        simp [faqStep, handleScroll, hman]
      rw [hstep]
      exact ih fun x hx => h x (List.mem_cons_of_mem _ hx)
    | click s registered => simp [isScrollEvent] at he
    | timeout => simp [isScrollEvent] at he

/-- C8: a sidebar-link click on a registered section immediately makes that
section active and raises the manual-scrolling flag, and from then until the
500 ms timeout event resets the flag, any sequence of scroll events leaves
the state — in particular the active section — completely unchanged. -/
theorem c8_click_suppresses_scroll (st : FAQContentState)
    (sectionTitle : String) (evs : List FAQEvent)
    (h : ∀ e ∈ evs, isScrollEvent e = true) :
    (faqStep st (.click sectionTitle true)).activeSection = sectionTitle ∧
    (faqStep st (.click sectionTitle true)).isManualScrolling = true ∧
    List.foldl faqStep (faqStep st (.click sectionTitle true)) evs =
      faqStep st (.click sectionTitle true) := by
  refine ⟨rfl, rfl, ?_⟩
  exact foldl_faqStep_of_manual evs _ rfl h

/-- C8 witness: after clicking "fees", two scroll events (one of which would
otherwise re-select "intro") change nothing; the active section stays
"fees". -/
theorem c8_click_witness :
    (faqStep ⟨"intro", false⟩ (.click "fees" true)).activeSection = "fees" ∧
    List.foldl faqStep (faqStep ⟨"intro", false⟩ (.click "fees" true))
        [.scroll [⟨"intro", 160⟩], .scroll []] =
      faqStep ⟨"intro", false⟩ (.click "fees" true) := by
  have h := c8_click_suppresses_scroll ⟨"intro", false⟩ "fees"
    [.scroll [⟨"intro", 160⟩], .scroll []] (by decide)
  exact ⟨h.1, h.2.2⟩
